import Mathlib

/-!
Verification development for the abacus training application ("智慧珠算仿真系统").

The data model (`RodState`, `Challenge`, `UserStats`) and the App component's
operations (`handleRodChange`, `startChallenge`, the validation effect) are
embedded from the TypeScript sources.  The helper library `services/AbacusLogic`
and the Rod component are not among the available sources; the functions the
claims need from them (`identifyFormula`, `setBead`, `createInitialRods`) are
modelled from the specification and marked as such in their doc comments.
-/

namespace AbacusApp

/-- Structure `RodState` from types.ts: one decimal place's bead configuration.
TypeScript numbers are embedded as integers. -/
structure RodState where
  id : Int
  value : Int
  activeHeavenCount : Int
  activeEarthCount : Int
deriving DecidableEq

/-- Type `ProblemType` from types.ts. -/
inductive ProblemType where
  | ADD
  | SUB
  | MUL
  | DIV
  | MIXED
deriving DecidableEq

/-- Record `Formula` from types.ts. -/
structure Formula where
  action : String
  koujue : String
  description : String
deriving DecidableEq

/-- Record `Challenge` from types.ts.  `targetValue` and the `steps` entries are
nonnegative (board totals are sums of nonnegative bead values), so they are
embedded as naturals. -/
structure Challenge where
  id : String
  type : ProblemType
  question : String
  targetValue : Nat
  steps : List Nat
  currentStepIndex : Nat
  ruleDescription : Option String
deriving DecidableEq

/-- One point of `UserStats.accuracyHistory`.  The accuracy is a JavaScript
number computed by `Math.min(100, (c / (c + 0.5)) * 100)`; the arithmetic is
embedded exactly, over the rationals. -/
structure AccuracyPoint where
  time : String
  accuracy : ℚ
deriving DecidableEq

/-- Record `UserStats` from types.ts. -/
structure UserStats where
  totalOperations : Nat
  correctAnswers : Nat
  accuracyHistory : List AccuracyPoint
deriving DecidableEq

/-- Type `Partial<RodState>`: the `newState` argument of `handleRodChange`; each
field is optionally overridden. -/
structure PartialRodState where
  id : Option Int := none
  value : Option Int := none
  activeHeavenCount : Option Int := none
  activeEarthCount : Option Int := none
deriving DecidableEq

/-- The spread merge `{ ...oldRod, ...newState }` in `handleRodChange`. -/
def mergeRod (oldRod : RodState) (newState : PartialRodState) : RodState :=
  { id := newState.id.getD oldRod.id
    value := newState.value.getD oldRod.value
    activeHeavenCount := newState.activeHeavenCount.getD oldRod.activeHeavenCount
    activeEarthCount := newState.activeEarthCount.getD oldRod.activeEarthCount }

/-- Modelled from the spec: `createInitialRods` lives in `services/AbacusLogic`,
which is not among the available sources.  Per the spec it produces a board of
all-zero rods. -/
def createInitialRods (count : Nat) : List RodState :=
  (List.range count).map fun i =>
    { id := (i : Int), value := 0, activeHeavenCount := 0, activeEarthCount := 0 }

/-- Modelled from the spec: `identifyFormula` lives in `services/AbacusLogic`,
which is not among the available sources (only its import and its call site in
the App component are).  Per the spec, classification is a deterministic table
lookup keyed by the sign and magnitude of `newValue - oldValue`: no movement
gives no formula; a move wrapping through ten is a ten-complement technique; a
move crossing the heaven-bead threshold of five is a five-complement technique
(taking precedence below ten); any other move is a direct bead move.  Every
non-trivial transition yields a `Formula` (null iff `oldValue == newValue`). -/
def identifyFormula (oldValue newValue : Int) : Option Formula :=
  if newValue - oldValue = 0 then
    none
  else if 0 < newValue - oldValue then
    let mag := toString (newValue - oldValue).natAbs
    if 10 ≤ newValue then
      some { action := "ten-complement-add " ++ mag
             koujue := "add " ++ mag ++ " carry ten"
             description := "carry through ten on this rod" }
    else if oldValue ≤ 4 ∧ 5 ≤ newValue then
      some { action := "five-complement-add " ++ mag
             koujue := "add " ++ mag ++ " via five"
             description := "engage the heaven bead, adjust earth beads" }
    else
      some { action := "direct-add " ++ mag
             koujue := "add " ++ mag
             description := "move earth beads directly" }
  else
    let mag := toString (newValue - oldValue).natAbs
    if 10 ≤ oldValue ∧ newValue < 10 then
      some { action := "ten-complement-sub " ++ mag
             koujue := "sub " ++ mag ++ " borrow ten"
             description := "borrow through ten on this rod" }
    else if 5 ≤ oldValue ∧ newValue ≤ 4 then
      some { action := "five-complement-sub " ++ mag
             koujue := "sub " ++ mag ++ " via five"
             description := "release the heaven bead, adjust earth beads" }
    else
      some { action := "direct-sub " ++ mag
             koujue := "sub " ++ mag
             description := "move earth beads directly" }

/-- The bead-mutation error of the spec's error taxonomy. -/
inductive BeadError where
  | OutOfRangeError
deriving DecidableEq

/-- Modelled from the spec: `setBead` belongs to the Rod component, which is
not among the available sources.  Per the spec it validates that the heaven
count lies in [0,2] and the earth count in [0,5], fails with `OutOfRangeError`
if either count is outside its legal interval, and otherwise returns the rod
updated with the new counts and the derived value. -/
def setBead (rod : RodState) (heavenCount earthCount : Int) :
    Except BeadError RodState :=
  if heavenCount < 0 ∨ 2 < heavenCount ∨ earthCount < 0 ∨ 5 < earthCount then
    .error .OutOfRangeError
  else
    .ok { rod with
          activeHeavenCount := heavenCount
          activeEarthCount := earthCount
          value := heavenCount * 5 + earthCount }

/-- The rod state after a `setBead` request: on failure the rod is left
unchanged (the spec: rejected, board left unchanged). -/
def setBeadApply (rod : RodState) (heavenCount earthCount : Int) : RodState :=
  match setBead rod heavenCount earthCount with
  | .ok r => r
  | .error _ => rod

/-- The decimal digit characters of a natural number, most significant first
(`n.toString()` in the App). -/
def decimalString (n : Nat) : List Char :=
  Nat.toDigits 10 n

/-- Embedding of `.replace(/0+$/, '')` in the App: remove the maximal run of trailing zero
characters. -/
def stripTrailingZeros (s : List Char) : List Char :=
  (s.reverse.dropWhile (fun c => c == '0')).reverse

/-- The validator's verdict.  In the App the verdict is observable through the
feedback message set by the validation effect: `Correct` is the branch setting
"回答正确!", `TooHigh` sets "数值偏大...", `InProgress` sets "计算中...", and
`Idle` sets the empty message. -/
inductive Verdict where
  | Idle
  | InProgress
  | TooHigh
  | Correct
deriving DecidableEq

/-- The validation logic of the App's validation effect, as a function of the
challenge type, the challenge target and the current board total.  For MUL/DIV
the correctness test strips trailing zeros from both decimal strings and also
requires a positive total; otherwise exact equality is required.  When not
correct, ADD/SUB distinguish `TooHigh`, while the other types only distinguish
`InProgress` from `Idle`. -/
def validationVerdict (ty : ProblemType) (target v : Nat) : Verdict :=
  match ty with
  | .MUL | .DIV =>
    if 0 < v ∧ stripTrailingZeros (decimalString v) =
        stripTrailingZeros (decimalString target) then
      .Correct
    else if 0 < v then .InProgress
    else .Idle
  | .ADD | .SUB =>
    if v = target then .Correct
    else if target < v then .TooHigh
    else if 0 < v then .InProgress
    else .Idle
  | .MIXED =>
    if v = target then .Correct
    else if 0 < v then .InProgress
    else .Idle

/-- The accuracy value recorded on a correct answer:
`Math.min(100, (c / (c + 0.5)) * 100)`, embedded exactly over the rationals. -/
def accuracyValue (c : Nat) : ℚ :=
  min 100 ((c : ℚ) / ((c : ℚ) + 1 / 2) * 100)

/-- The stats update performed by the validation effect when the verdict is
`Correct`: increment `correctAnswers`, append one accuracy point computed from
the updated count, and keep only the last 10 points (`.slice(-10)`). -/
def updateStatsOnCorrect (prev : UserStats) (time : String) : UserStats :=
  let newCorrect := prev.correctAnswers + 1
  let appended := prev.accuracyHistory ++
    [{ time := time, accuracy := accuracyValue newCorrect }]
  { prev with
    correctAnswers := newCorrect
    accuracyHistory := appended.drop (appended.length - 10) }

/-- One run of the App's validation effect (in Training mode with an active
challenge), restricted to its effect on the stats: the stats are updated
exactly when the verdict is `Correct`. -/
def runValidationEffect (ch : Challenge) (v : Nat) (time : String)
    (stats : UserStats) : UserStats :=
  if validationVerdict ch.type ch.targetValue v = .Correct then
    updateStatsOnCorrect stats time
  else
    stats

/-- The validation effect re-runs on every change of the board total; a list of
successive distinct totals therefore produces one effect run each. -/
def runTotalsTrace (ch : Challenge) (totals : List (Nat × String))
    (stats : UserStats) : UserStats :=
  totals.foldl (fun s vt => runValidationEffect ch vt.1 vt.2 s) stats

/-- The full state touched by `handleRodChange`. -/
structure AppState where
  rods : List RodState
  lastFormula : Option Formula
  stats : UserStats
deriving DecidableEq

/-- Function `handleRodChange` from the App component: copies the rod array, merges the
rod at index `id` with `newState`, identifies the formula of the single-rod
value transition (retaining the previous formula when none is identified), and
increments `totalOperations` by one.  When `id` is not a valid rod index the
App would fault reading `oldRod`'s fields; this is modelled as `none`. -/
def handleRodChange (s : AppState) (id : Nat) (newState : PartialRodState) :
    Option AppState :=
  match s.rods[id]? with
  | none => none
  | some oldRod =>
    let updatedRod := mergeRod oldRod newState
    let newRods := s.rods.set id updatedRod
    let oldVal := oldRod.activeHeavenCount * 5 + oldRod.activeEarthCount
    let newVal := updatedRod.activeHeavenCount * 5 + updatedRod.activeEarthCount
    let formula := identifyFormula oldVal newVal
    some { rods := newRods
           lastFormula := match formula with
             | some f => some f
             | none => s.lastFormula
           stats := { s.stats with
                      totalOperations := s.stats.totalOperations + 1 } }

/-- The output shape of `generateChallenge` (the generator itself lives in
`services/AbacusLogic` and is not among the available sources; `startChallenge`
only repackages its output, so the shape suffices). -/
structure GeneratedChallenge where
  question : String
  targetValue : Nat
  steps : List Nat
  ruleDescription : Option String
deriving DecidableEq

/-- The type list of `startChallenge`:
`const types: any[] = ['ADD', 'SUB', 'MUL', 'DIV']`. -/
def challengeTypes : List ProblemType :=
  [.ADD, .SUB, .MUL, .DIV]

/-- Function `startChallenge` from the App component: picks
`types[Math.floor(Math.random() * types.length)]` — the random draw is
modelled as an index below the length of the type list — and builds the new
challenge from the generator's output, with `currentStepIndex` 0. -/
def startChallenge (r : Fin challengeTypes.length) (gen : GeneratedChallenge)
    (now : String) : Challenge :=
  { id := now
    type := challengeTypes.get r
    question := gen.question
    targetValue := gen.targetValue
    steps := gen.steps
    currentStepIndex := 0
    ruleDescription := gen.ruleDescription }

/-- C1: For every MUL or DIV challenge and every board total `v`, the validator
reports `Correct` if and only if `v > 0` and the decimal string of `v` with
trailing zero digits stripped equals the decimal string of the challenge's
`targetValue` with trailing zero digits stripped; in particular a total of 0 is
never `Correct`, even when `targetValue = 0`. -/
theorem C1_mulDiv_correct_iff (v t : Nat) :
    (validationVerdict .MUL t v = .Correct ↔
      0 < v ∧ stripTrailingZeros (decimalString v) =
        stripTrailingZeros (decimalString t)) ∧
    (validationVerdict .DIV t v = .Correct ↔
      0 < v ∧ stripTrailingZeros (decimalString v) =
        stripTrailingZeros (decimalString t)) ∧
    validationVerdict .MUL t 0 ≠ .Correct ∧
    validationVerdict .DIV t 0 ≠ .Correct := by
  refine ⟨?_, ?_, ?_, ?_⟩ <;> simp only [validationVerdict] <;>
    split_ifs with h1 h2 <;> simp_all

/-- C2: For every ADD or SUB challenge with target `t` and every board total
`v`, the verdict is `Correct` iff `v = t`, `TooHigh` iff `v > t`, `InProgress`
iff `0 < v < t`, and `Idle` iff `v = 0` and not already correct; the total
sequence 0, 7, 15 against target 15 yields Idle, InProgress, Correct. -/
theorem C2_addSub_verdicts (v t : Nat) :
    (validationVerdict .ADD t v = .Correct ↔ v = t) ∧
    (validationVerdict .ADD t v = .TooHigh ↔ t < v) ∧
    (validationVerdict .ADD t v = .InProgress ↔ 0 < v ∧ v < t) ∧
    (validationVerdict .ADD t v = .Idle ↔ v = 0 ∧ v ≠ t) ∧
    (validationVerdict .SUB t v = .Correct ↔ v = t) ∧
    (validationVerdict .SUB t v = .TooHigh ↔ t < v) ∧
    (validationVerdict .SUB t v = .InProgress ↔ 0 < v ∧ v < t) ∧
    (validationVerdict .SUB t v = .Idle ↔ v = 0 ∧ v ≠ t) ∧
    validationVerdict .ADD 15 0 = .Idle ∧
    validationVerdict .ADD 15 7 = .InProgress ∧
    validationVerdict .ADD 15 15 = .Correct := by
  refine ⟨?_, ?_, ?_, ?_, ?_, ?_, ?_, ?_, by decide, by decide, by decide⟩ <;>
    simp only [validationVerdict] <;>
    split_ifs with h1 h2 h3 <;> simp_all <;> omega

/-- C3: A `setBead` request with a heaven count outside [0,2] or an earth
count outside [0,5] fails with `OutOfRangeError` and leaves the rod unchanged;
otherwise the rod updated with the requested counts is returned. -/
theorem C3_setBead_bounds (rod : RodState) (h e : Int) :
    ((h < 0 ∨ 2 < h ∨ e < 0 ∨ 5 < e) →
      setBead rod h e = .error .OutOfRangeError ∧ setBeadApply rod h e = rod) ∧
    (0 ≤ h → h ≤ 2 → 0 ≤ e → e ≤ 5 →
      setBead rod h e = .ok { rod with
        activeHeavenCount := h, activeEarthCount := e, value := h * 5 + e }) := by
  constructor
  · intro hout
    have hb : setBead rod h e = .error .OutOfRangeError := by
      unfold setBead
      rw [if_pos hout]
    refine ⟨hb, ?_⟩
    unfold setBeadApply
    rw [hb]
  · intro h0 h2 e0 e5
    have hin : ¬(h < 0 ∨ 2 < h ∨ e < 0 ∨ 5 < e) := by
      push_neg
      exact ⟨h0, h2, e0, e5⟩
    unfold setBead
    rw [if_neg hin]

/-- Witness for C3: `setBead` with heaven count 3 and earth count 6 on a
zeroed rod fails with `OutOfRangeError` and leaves the rod unchanged. -/
theorem C3_setBead_bounds_witness :
    setBead { id := 0, value := 0, activeHeavenCount := 0, activeEarthCount := 0 }
        3 6 = .error .OutOfRangeError ∧
    setBeadApply { id := 0, value := 0, activeHeavenCount := 0, activeEarthCount := 0 }
        3 6 =
      { id := 0, value := 0, activeHeavenCount := 0, activeEarthCount := 0 } :=
  (C3_setBead_bounds
    { id := 0, value := 0, activeHeavenCount := 0, activeEarthCount := 0 } 3 6).1
    (Or.inr (Or.inl (by decide)))

/-- C5: For all rod value pairs reachable under the bead bounds (values in
[0,15]), `identifyFormula` is a pure function — hence deterministic — and it
returns no formula exactly when `oldValue = newValue`. -/
theorem C5_identifyFormula_none_iff (o n : Int)
    (ho0 : 0 ≤ o) (ho1 : o ≤ 15) (hn0 : 0 ≤ n) (hn1 : n ≤ 15) :
    identifyFormula o n = none ↔ o = n := by
  unfold identifyFormula
  split_ifs with h1 h2 h3 h4 h5 h6 <;> simp_all <;> omega

/-- Witness for C5: the transition from rod value 8 to rod value 3 is within
the bead bounds and yields a formula (it is not a null transition). -/
theorem C5_identifyFormula_witness :
    ((0 : Int) ≤ 8 ∧ (8 : Int) ≤ 15 ∧ (0 : Int) ≤ 3 ∧ (3 : Int) ≤ 15) ∧
    (identifyFormula 8 3 = none ↔ (8 : Int) = 3) :=
  ⟨by decide,
    C5_identifyFormula_none_iff 8 3 (by decide) (by decide) (by decide) (by decide)⟩

/-- The stats record as initialised by the App on first launch. -/
def initialStats : UserStats :=
  { totalOperations := 0, correctAnswers := 0
    accuracyHistory := [{ time := "start", accuracy := 0 }] }

/-- A concrete MUL challenge with target 1. -/
def mulOneChallenge : Challenge :=
  { id := "c", type := .MUL, question := "1 x 1", targetValue := 1, steps := [1]
    currentStepIndex := 0, ruleDescription := none }

/-- The accuracy formula in exact rational arithmetic: for every count `c`,
`c / (c + 1/2) * 100` is nonnegative and strictly below 100, so under exact
arithmetic the `min 100 _` cap is not attained.  This is a fact about the
exact value only: the program evaluates the expression in IEEE-754 binary64,
where the cap is attained (see the binary64 model below). -/
theorem accuracyValue_facts (c : Nat) :
    0 ≤ accuracyValue c ∧ accuracyValue c < 100 ∧
      accuracyValue c = (c : ℚ) / ((c : ℚ) + 1 / 2) * 100 := by
  have hd : (0 : ℚ) < (c : ℚ) + 1 / 2 := by positivity
  have hlt : (c : ℚ) / ((c : ℚ) + 1 / 2) * 100 < 100 := by
    rw [div_mul_eq_mul_div, div_lt_iff₀ hd]
    have : (0 : ℚ) ≤ (c : ℚ) := by positivity
    linarith
  have h0 : (0 : ℚ) ≤ (c : ℚ) / ((c : ℚ) + 1 / 2) * 100 := by positivity
  have heq : accuracyValue c = (c : ℚ) / ((c : ℚ) + 1 / 2) * 100 :=
    min_eq_right hlt.le
  exact ⟨heq ▸ h0, heq ▸ hlt, heq⟩

/-- The accuracy history after a correct answer, written explicitly: the old
history with the new point appended, then all but the last 10 dropped. -/
theorem updateStats_history_eq (prev : UserStats) (time : String) :
    (updateStatsOnCorrect prev time).accuracyHistory =
      (prev.accuracyHistory ++
        [({ time := time, accuracy := accuracyValue (prev.correctAnswers + 1) } :
          AccuracyPoint)]).drop
        (prev.accuracyHistory.length + 1 - 10) := by
  simp [updateStatsOnCorrect]

/-- The last entry of the accuracy history after a correct answer is the
freshly appended point. -/
theorem updateStats_getLast (prev : UserStats) (time : String) :
    (updateStatsOnCorrect prev time).accuracyHistory.getLast? =
      some { time := time, accuracy := accuracyValue (prev.correctAnswers + 1) } := by
  rw [updateStats_history_eq]
  rw [List.drop_append_of_le_length (by omega)]
  exact List.getLast?_concat _

/-- C4 fails on the code: with the MUL challenge of target 1 the totals 10 and
100 both validate as `Correct` (both strip to "1"), each total is reachable
from the previous one by a single rod mutation, and running the validation
effect on the total sequence 10, 100 increments `correctAnswers` twice —
a second increment occurs after entering `Correct`, with no new challenge and
no reset in between. -/
theorem C4_counterexample :
    validationVerdict mulOneChallenge.type mulOneChallenge.targetValue 10 =
      .Correct ∧
    validationVerdict mulOneChallenge.type mulOneChallenge.targetValue 100 =
      .Correct ∧
    initialStats.correctAnswers = 0 ∧
    (runTotalsTrace mulOneChallenge [(10, "a"), (100, "b")]
      initialStats).correctAnswers = 2 := by
  refine ⟨by decide, by decide, rfl, ?_⟩
  rfl

/-- C4 amended: `correctAnswers` is incremented exactly once per validation
run whose verdict is `Correct` (and left unchanged otherwise); since the
effect reruns on every change of the board total, a board change between two
distinct totals that both validate as `Correct` increments the counter
again. -/
theorem C4_amended_increment (ch : Challenge) (v : Nat) (time : String)
    (stats : UserStats) :
    (runValidationEffect ch v time stats).correctAnswers =
      if validationVerdict ch.type ch.targetValue v = .Correct then
        stats.correctAnswers + 1
      else stats.correctAnswers := by
  unfold runValidationEffect updateStatsOnCorrect
  split_ifs <;> rfl

/-- C6: each correct answer appends exactly one point to the accuracy history,
whose value is `min(100, c/(c+0.5)*100)` computed from the updated count, and
the history is then truncated to at most its last 10 points. -/
theorem C6_accuracy_history_update (prev : UserStats) (time : String) :
    (updateStatsOnCorrect prev time).correctAnswers = prev.correctAnswers + 1 ∧
    (updateStatsOnCorrect prev time).accuracyHistory.length =
      min (prev.accuracyHistory.length + 1) 10 ∧
    (updateStatsOnCorrect prev time).accuracyHistory <:+
      prev.accuracyHistory ++
        [{ time := time, accuracy := accuracyValue (prev.correctAnswers + 1) }] ∧
    (updateStatsOnCorrect prev time).accuracyHistory.getLast? =
      some { time := time, accuracy := accuracyValue (prev.correctAnswers + 1) } ∧
    accuracyValue (prev.correctAnswers + 1) =
      min 100 ((prev.correctAnswers + 1 : ℚ) /
        ((prev.correctAnswers + 1 : ℚ) + 1 / 2) * 100) := by
  refine ⟨rfl, ?_, ?_, updateStats_getLast prev time, ?_⟩
  · rw [updateStats_history_eq, List.length_drop, List.length_append]
    simp
    omega
  · rw [updateStats_history_eq]
    exact List.drop_suffix _ _
  · unfold accuracyValue
    push_cast
    rfl

/-- C7: `handleRodChange` increments `totalOperations` by exactly one on every
rod mutation, whatever the mode, the recognized formula, or the verdict. -/
theorem C7_totalOperations_increment (s : AppState) (id : Nat)
    (ns : PartialRodState) (s' : AppState)
    (h : handleRodChange s id ns = some s') :
    s'.stats.totalOperations = s.stats.totalOperations + 1 := by
  unfold handleRodChange at h
  cases hr : s.rods[id]? with
  | none => rw [hr] at h; exact absurd h (by simp)
  | some oldRod =>
    rw [hr] at h
    simp only [Option.some.injEq] at h
    rw [← h]

/-- The sample state the frame witnesses mutate: a freshly initialised
two-rod board. -/
def sampleState : AppState :=
  { rods := createInitialRods 2, lastFormula := none, stats := initialStats }

/-- The empty partial update `{}`. -/
def sampleUpdate : PartialRodState := {}

/-- The state `handleRodChange sampleState 0 sampleUpdate` produces. -/
def sampleResult : AppState :=
  { rods := createInitialRods 2, lastFormula := none
    stats := { initialStats with totalOperations := 1 } }

/-- Witness for C7: mutating rod 0 of the sample state bumps
`totalOperations` from 0 to 1. -/
theorem C7_totalOperations_witness :
    handleRodChange sampleState 0 sampleUpdate = some sampleResult ∧
    sampleResult.stats.totalOperations = sampleState.stats.totalOperations + 1 :=
  ⟨by decide,
    C7_totalOperations_increment sampleState 0 sampleUpdate sampleResult
      (by decide)⟩

/-- C8: a mutation of the rod at index `id` changes only that rod — every rod
at any other index is exactly the same after the mutation as before. -/
theorem C8_frame_other_rods (s : AppState) (id : Nat) (ns : PartialRodState)
    (s' : AppState) (h : handleRodChange s id ns = some s')
    (j : Nat) (hj : j ≠ id) :
    s'.rods[j]? = s.rods[j]? := by
  unfold handleRodChange at h
  cases hr : s.rods[id]? with
  | none => rw [hr] at h; exact absurd h (by simp)
  | some oldRod =>
    rw [hr] at h
    simp only [Option.some.injEq] at h
    rw [← h]
    exact List.getElem?_set_ne (fun he => hj he.symm)

/-- Witness for C8: mutating rod 0 of the two-rod sample state leaves rod 1
untouched. -/
theorem C8_frame_witness :
    handleRodChange sampleState 0 sampleUpdate = some sampleResult ∧
    sampleResult.rods[1]? = sampleState.rods[1]? :=
  ⟨by decide,
    C8_frame_other_rods sampleState 0 sampleUpdate sampleResult (by decide)
      1 (by decide)⟩

/-- C9: every challenge created through `startChallenge` has type ADD, SUB,
MUL or DIV; the training flow never generates a MIXED challenge. -/
theorem C9_startChallenge_no_mixed (r : Fin challengeTypes.length)
    (gen : GeneratedChallenge) (now : String) :
    (startChallenge r gen now).type ≠ .MIXED ∧
    ((startChallenge r gen now).type = .ADD ∨
      (startChallenge r gen now).type = .SUB ∨
      (startChallenge r gen now).type = .MUL ∨
      (startChallenge r gen now).type = .DIV) := by
  fin_cases r <;>
    first
    | exact ⟨fun h => ProblemType.noConfusion h, Or.inl rfl⟩
    | exact ⟨fun h => ProblemType.noConfusion h, Or.inr (Or.inl rfl)⟩
    | exact ⟨fun h => ProblemType.noConfusion h, Or.inr (Or.inr (Or.inl rfl))⟩
    | exact ⟨fun h => ProblemType.noConfusion h, Or.inr (Or.inr (Or.inr rfl))⟩

/-- Rounding a rational to the nearest integer, ties to even. -/
def roundHalfEven (r : ℚ) : Int :=
  if r - ⌊r⌋ < 1 / 2 then ⌊r⌋
  else if 1 / 2 < r - ⌊r⌋ then ⌊r⌋ + 1
  else if ⌊r⌋ % 2 = 0 then ⌊r⌋ else ⌊r⌋ + 1

/-- Rounding a nonnegative rational to the nearest IEEE-754 binary64 value
(round-to-nearest, ties-to-even): the value is scaled by the power of two that
brings it into the 53-bit mantissa range [2^52, 2^53) — `Int.log 2 q` is the
floor of its base-two logarithm — rounded half-to-even to an integer mantissa,
and scaled back.  Subnormal underflow and overflow to infinity lie far outside
the range the theorems below use and are not modelled. -/
def roundToBinary64 (q : ℚ) : ℚ :=
  if q ≤ 0 then 0
  else
    (roundHalfEven (q / 2 ^ (Int.log 2 q - 52)) : ℚ) * 2 ^ (Int.log 2 q - 52)

/-- The accuracy expression `Math.min(100, (c / (c + 0.5)) * 100)` as the
program evaluates it, in IEEE-754 binary64 with every operation rounded (the
literals 0.5 and 100 are exactly representable and need no rounding). -/
def accuracyValueFP (c : Nat) : ℚ :=
  min 100
    (roundToBinary64
      (roundToBinary64
        (roundToBinary64 (c : ℚ) /
          roundToBinary64 (roundToBinary64 (c : ℚ) + 1 / 2)) * 100))

/-- Rounding half to even never turns a nonnegative value negative. -/
theorem roundHalfEven_nonneg (r : ℚ) (hr : 0 ≤ r) : 0 ≤ roundHalfEven r := by
  have hf : (0 : Int) ≤ ⌊r⌋ := Int.le_floor.mpr (by exact_mod_cast hr)
  unfold roundHalfEven
  split_ifs <;> omega

/-- Binary64 rounding never turns a nonnegative value negative. -/
theorem roundToBinary64_nonneg (q : ℚ) : 0 ≤ roundToBinary64 q := by
  unfold roundToBinary64
  split_ifs with h
  · exact le_refl 0
  · push_neg at h
    have he : (0 : ℚ) < 2 ^ (Int.log 2 q - 52) := by positivity
    have hr : 0 ≤ q / 2 ^ (Int.log 2 q - 52) := by positivity
    have hn := roundHalfEven_nonneg _ hr
    have hcast : (0 : ℚ) ≤ (roundHalfEven (q / 2 ^ (Int.log 2 q - 52)) : ℚ) := by
      exact_mod_cast hn
    exact mul_nonneg hcast he.le

/-- Pinning the binary exponent: if `2^k ≤ q < 2^(k+1)` then the floor of the
base-two logarithm of `q` is `k`. -/
theorem int_log2_eq_of_bounds (q : ℚ) (k : ℤ)
    (h1 : (2 : ℚ) ^ k ≤ q) (h2 : q < (2 : ℚ) ^ (k + 1)) : Int.log 2 q = k := by
  have hq : 0 < q := lt_of_lt_of_le (by positivity) h1
  have hk1 : k ≤ Int.log 2 q := by
    apply (Int.zpow_le_iff_le_log one_lt_two hq).mp
    exact_mod_cast h1
  have hk2 : Int.log 2 q < k + 1 := by
    apply (Int.lt_zpow_iff_log_lt one_lt_two hq).mp
    exact_mod_cast h2
  omega

/-- Rounding half to even fixes the integers. -/
theorem roundHalfEven_intCast (n : ℤ) : roundHalfEven (n : ℚ) = n := by
  unfold roundHalfEven
  rw [Int.floor_intCast]
  norm_num

/-- Rounding half to even sends `n + 1/2` to `n` for even `n`: the tie is
broken to the even neighbour. -/
theorem roundHalfEven_add_half_even (n : ℤ) (hn : n % 2 = 0) :
    roundHalfEven ((n : ℚ) + 1 / 2) = n := by
  have hhalf : ⌊(1 / 2 : ℚ)⌋ = 0 := by
    rw [Int.floor_eq_zero_iff, Set.mem_Ico]
    constructor <;> norm_num
  have hf : ⌊(n : ℚ) + 1 / 2⌋ = n := by
    rw [add_comm, Int.floor_add_int, hhalf, zero_add]
  unfold roundHalfEven
  rw [hf]
  have hs : (n : ℚ) + 1 / 2 - n = 1 / 2 := by ring
  rw [hs]
  norm_num [hn]

/-- Witness for the tie at the mantissa boundary: in binary64 the sum
`2^52 + 0.5` rounds to `2^52` — the half is absorbed. -/
theorem roundToBinary64_two_pow_52_add_half :
    roundToBinary64 ((2 : ℚ) ^ (52 : ℕ) + 1 / 2) = 2 ^ (52 : ℕ) := by
  have h0 : ¬((2 : ℚ) ^ (52 : ℕ) + 1 / 2 ≤ 0) := not_le.mpr (by positivity)
  have hlog : Int.log 2 ((2 : ℚ) ^ (52 : ℕ) + 1 / 2) = 52 := by
    apply int_log2_eq_of_bounds <;> norm_num
  unfold roundToBinary64
  rw [if_neg h0, hlog]
  have he : (52 : ℤ) - 52 = 0 := by norm_num
  rw [he, zpow_zero, div_one, mul_one]
  have hcast : (2 : ℚ) ^ (52 : ℕ) + 1 / 2 = ((2 ^ 52 : ℤ) : ℚ) + 1 / 2 := by
    push_cast
    ring
  rw [hcast, roundHalfEven_add_half_even _ (by norm_num)]
  push_cast
  ring

/-- Binary64 rounding fixes the exactly representable value `2^52`. -/
theorem roundToBinary64_two_pow_52 :
    roundToBinary64 ((2 : ℚ) ^ (52 : ℕ)) = 2 ^ (52 : ℕ) := by
  have h0 : ¬((2 : ℚ) ^ (52 : ℕ) ≤ 0) := not_le.mpr (by positivity)
  have hlog : Int.log 2 ((2 : ℚ) ^ (52 : ℕ)) = 52 := by
    apply int_log2_eq_of_bounds <;> norm_num
  unfold roundToBinary64
  rw [if_neg h0, hlog]
  have he : (52 : ℤ) - 52 = 0 := by norm_num
  rw [he, zpow_zero, div_one, mul_one]
  have hcast : (2 : ℚ) ^ (52 : ℕ) = ((2 ^ 52 : ℤ) : ℚ) := by
    push_cast
    ring
  rw [hcast, roundHalfEven_intCast]

/-- Binary64 rounding fixes the exactly representable value 1. -/
theorem roundToBinary64_one : roundToBinary64 (1 : ℚ) = 1 := by
  have h0 : ¬((1 : ℚ) ≤ 0) := by norm_num
  have hlog : Int.log 2 (1 : ℚ) = 0 := Int.log_one_right 2
  unfold roundToBinary64
  rw [if_neg h0, hlog]
  have he : (0 : ℤ) - 52 = -52 := by norm_num
  rw [he]
  have hx : (1 : ℚ) / 2 ^ (-52 : ℤ) = ((2 ^ 52 : ℤ) : ℚ) := by
    rw [one_div, ← zpow_neg, neg_neg]
    push_cast
    norm_num
  rw [hx, roundHalfEven_intCast]
  push_cast
  norm_num

/-- Binary64 rounding fixes the exactly representable value 100. -/
theorem roundToBinary64_hundred : roundToBinary64 (100 : ℚ) = 100 := by
  have h0 : ¬((100 : ℚ) ≤ 0) := by norm_num
  have hlog : Int.log 2 (100 : ℚ) = 6 := by
    apply int_log2_eq_of_bounds <;> norm_num
  unfold roundToBinary64
  rw [if_neg h0, hlog]
  have he : (6 : ℤ) - 52 = -46 := by norm_num
  rw [he]
  have hx : (100 : ℚ) / 2 ^ (-46 : ℤ) = ((100 * 2 ^ 46 : ℤ) : ℚ) := by
    rw [div_eq_mul_inv, ← zpow_neg, neg_neg]
    push_cast
    norm_num
  rw [hx, roundHalfEven_intCast]
  push_cast
  norm_num

/-- The binary64 evaluation of the accuracy expression at count `2^52`: the
half is absorbed in the sum, the quotient is exactly 1, and the result is
exactly 100. -/
theorem accuracyValueFP_two_pow_52 : accuracyValueFP (2 ^ 52) = 100 := by
  unfold accuracyValueFP
  have hc : ((2 ^ 52 : ℕ) : ℚ) = (2 : ℚ) ^ (52 : ℕ) := by
    push_cast
    ring
  rw [hc, roundToBinary64_two_pow_52, roundToBinary64_two_pow_52_add_half,
    div_self (pow_ne_zero _ two_ne_zero), roundToBinary64_one, one_mul,
    roundToBinary64_hundred, min_self]

/-- C10 fails on the program's arithmetic: the accuracy expression is computed
in IEEE-754 binary64, where at count 2^52 the summand 0.5 is absorbed
(2^52 + 0.5 is a tie between the adjacent doubles 2^52 and 2^52 + 1 and rounds
to the even mantissa, 2^52), the quotient is then exactly 1 and the computed
accuracy is exactly 100: the `min(100, ·)` cap is attained and a history point
equal to 100 is appended, contradicting the half-open interval [0, 100).  The
exact rational value at the same count is strictly below 100, which is
precisely where exact arithmetic and the program diverge. -/
theorem C10_counterexample :
    roundToBinary64 ((2 : ℚ) ^ (52 : ℕ) + 1 / 2) = 2 ^ (52 : ℕ) ∧
    accuracyValueFP (2 ^ 52) = 100 ∧
    accuracyValue (2 ^ 52) < 100 :=
  ⟨roundToBinary64_two_pow_52_add_half, accuracyValueFP_two_pow_52,
    (accuracyValue_facts (2 ^ 52)).2.1⟩

/-- C10 amended: for counts in the representable range, every accuracy value
the program computes lies in the closed interval [0, 100]; the `min(100, ·)`
cap is attained — at count 2^52 the binary64 value is exactly 100 — so history
points equal to 100 do occur and no strict sub-100 bound holds. -/
theorem C10_accuracy_closed_interval (c : Nat) (_hc : c ≤ 2 ^ 53) :
    0 ≤ accuracyValueFP c ∧ accuracyValueFP c ≤ 100 ∧
    accuracyValueFP (2 ^ 52) = 100 := by
  refine ⟨?_, min_le_left _ _, accuracyValueFP_two_pow_52⟩
  unfold accuracyValueFP
  exact le_min (by norm_num) (roundToBinary64_nonneg _)

/-- Witness for the amended C10 at the concrete count 42. -/
theorem C10_accuracy_closed_interval_witness :
    (42 ≤ 2 ^ 53) ∧
    (0 ≤ accuracyValueFP 42 ∧ accuracyValueFP 42 ≤ 100 ∧
      accuracyValueFP (2 ^ 52) = 100) :=
  ⟨by norm_num, C10_accuracy_closed_interval 42 (by norm_num)⟩

end AbacusApp
